import Mathlib

/-
Shallow embedding of `src/Peer.go` from the wgo BitTorrent client: the
per-connection peer handler (state machine, dispatcher, interest and
request-triggering logic, reader/writer task bodies, shutdown routine).

`Peer.go` is the only file of the repository available here.  The
collaborators it calls (`Bitfield`, `Wire`, `PeerQueue`) are modelled from
the specification and marked `Modelled from the spec:` in their doc
comments.  Channel sends are modelled as emitted events; the per-connection
channels are identified by tags (`Event` constructors) and the private
response channel by a numeric identity (`incomingId`).  A Go runtime crash
(nil dereference, out-of-range index) is modelled as `none` in helper
functions and the `crash` result of the dispatcher, distinct from an
ordinary returned error.
-/

namespace Wgo

/-- Wire protocol message ids, `choke=0 .. port=9` (spec section 6 and the
constant block the source refers to). -/
def idChoke : Nat := 0

def idUnchoke : Nat := 1

def idInterested : Nat := 2

def idUninterested : Nat := 3

def idHave : Nat := 4

def idBitfield : Nat := 5

def idRequest : Nat := 6

def idPiece : Nat := 7

def idCancel : Nat := 8

def idPort : Nat := 9

/-- Modelled from the spec: the internal terminal marker id used in
`message{length: 1, msgId: exit, addr: p.addr}`; it is not one of the ten
wire ids, so it is given the next value after `port`. -/
def idExit : Nat := 10

/-- The `message` struct of the source: declared length, message id, raw
payload bytes, and the routing address. -/
structure Msg where
  length : Nat
  msgId : Nat
  payLoad : List Nat
  addr : String
deriving DecidableEq

/-- The `message{length: 1, msgId: exit, addr: a}` literal used on every
failure path and in `Close`. -/
def exitMsg (a : String) : Msg :=
  { length := 1, msgId := idExit, payLoad := [], addr := a }

/-- The `message{length: 0}` keep-alive literal written by the writer loop. -/
def keepAliveMsg : Msg :=
  { length := 0, msgId := 0, payLoad := [], addr := "" }

/-- The `message{length: 1, msgId: interested}` literal sent by
`CheckInterested` when the peer becomes interesting. -/
def interestedMsg : Msg :=
  { length := 1, msgId := idInterested, payLoad := [], addr := "" }

/-- The `message{length: 1, msgId: uninterested}` literal sent by
`CheckInterested` when the peer stops being interesting. -/
def uninterestedMsg : Msg :=
  { length := 1, msgId := idUninterested, payLoad := [], addr := "" }

/-- Modelled from the spec: the `Bitfield` collaborator (not under `src/`);
a fixed-size piece-availability bit vector, one entry per piece index. -/
structure Bitfield where
  bits : List Bool
deriving DecidableEq

/-- Modelled from the spec: `NewBitfield(n)` creates an empty bitfield of
`n` pieces. -/
def NewBitfield (n : Nat) : Bitfield :=
  ⟨List.replicate n false⟩

/-- Bit at a piece index (false beyond the declared length). -/
def Bitfield.get (b : Bitfield) (i : Nat) : Bool :=
  b.bits.getD i false

/-- Modelled from the spec: `Set(index)` marks a piece as present. -/
def Bitfield.Set (b : Bitfield) (i : Nat) : Bitfield :=
  ⟨b.bits.set i true⟩

/-- Modelled from the spec: `our.HasMorePieces(other)` holds iff the other
(remote) bitfield has at least one piece this (local) bitfield lacks. -/
def Bitfield.HasMorePieces (our other : Bitfield) : Bool :=
  (List.range other.bits.length).any fun i => other.get i && !our.get i

/-- Modelled from the spec: `Completed()` holds iff every piece is present. -/
def Bitfield.Completed (b : Bitfield) : Bool :=
  b.bits.all fun x => x

/-- Modelled from the spec: `Bytes()` packs the bits most-significant-bit
first, one bit per piece index, `(n+7)/8` bytes. -/
def Bitfield.Bytes (b : Bitfield) : List Nat :=
  (List.range ((b.bits.length + 7) / 8)).map fun i =>
    (List.range 8).foldl (fun acc j => acc + if b.get (8 * i + j) then 2 ^ (7 - j) else 0) 0

/-- Modelled from the spec: `NewBitfieldFromBytes` construct-from-bytes
fails if the byte length is incompatible with the declared piece count
(`(numPieces+7)/8` bytes expected); on failure no bitfield is produced. -/
def NewBitfieldFromBytes (numPieces : Nat) (data : List Nat) : Except String Bitfield :=
  if data.length = (numPieces + 7) / 8 then
    .ok ⟨(List.range numPieces).map fun i => Nat.testBit (data.getD (i / 8) 0) (7 - i % 8)⟩
  else
    .error "bad bitfield length"

/-- Go `binary.BigEndian.Uint32`: reads exactly the first four bytes; with a
shorter slice the Go implementation's bounds check crashes the program,
modelled as `none`. -/
def bigEndianUint32 (b : List Nat) : Option Nat :=
  match b with
  | b0 :: b1 :: b2 :: b3 :: _ =>
    some ((b0 % 256) * 16777216 + (b1 % 256) * 65536 + (b2 % 256) * 256 + b3 % 256)
  | _ => none

/-- The `PieceRequest` sent to the PieceMgr: the remote bitfield (the
`p.bitfield` pointer, hence an `Option`), the private response channel
(`p.incoming`, modelled by its numeric identity), and the address. -/
structure PieceRequest where
  bitfield : Option Bitfield
  response : Nat
  addr : String
deriving DecidableEq

/-- A channel send performed by the peer, by destination channel:
`toIncoming` = `p.incoming` (into the write queue), `toOutgoing` =
`p.outgoing` (shared supervisor channel), `toRequests` = `p.requests`
(PieceMgr), `toPieces` = `p.pieces` (delivered blocks / terminal marker),
`toDelete` = `p.delete` (write-queue retraction). -/
inductive Event where
  | toIncoming (m : Msg)
  | toOutgoing (m : Msg)
  | toRequests (r : PieceRequest)
  | toPieces (m : Msg)
  | toDelete (m : Msg)
deriving DecidableEq

/-- The `Peer` struct fields the protocol logic touches.  `bitfield` is the
remote peer's bitfield (`p.bitfield`, a pointer in Go, hence `Option`);
`our_bitfield` is the shared local completion bitfield.  `incomingId` is
the identity of the private `p.incoming` channel. -/
structure Peer where
  addr : String
  infohash : String
  our_peerId : String
  remote_peerId : String
  numPieces : Nat
  bitfield : Option Bitfield
  our_bitfield : Bitfield
  incomingId : Nat
  am_choking : Bool
  am_interested : Bool
  peer_choking : Bool
  peer_interested : Bool
  received_keepalive : Int
deriving DecidableEq

/-- Constructor `NewPeer`: initial flag values choking=true, interested=false on both
sides; remote bitfield starts empty with `numPieces` entries. -/
def NewPeer (addr infohash peerId : String) (numPieces : Nat)
    (our_bitfield : Bitfield) (incomingId : Nat) : Peer :=
  { addr := addr, infohash := infohash, our_peerId := peerId, remote_peerId := "",
    numPieces := numPieces, bitfield := some (NewBitfield numPieces),
    our_bitfield := our_bitfield, incomingId := incomingId,
    am_choking := true, am_interested := false,
    peer_choking := true, peer_interested := false, received_keepalive := 0 }

/-- Method `CheckInterested` (Peer.go:215-228): recompute interest; emit exactly
one `uninterested` or `interested` message on `p.incoming` when the flag
flips, nothing otherwise.  `none` models the nil dereference a Go call
with `p.bitfield == nil` would crash on. -/
def Peer.CheckInterested (p : Peer) : Option (Peer × List Event) :=
  match p.bitfield with
  | none => none
  | some rb =>
    if p.am_interested && !(p.our_bitfield.HasMorePieces rb) then
      some ({ p with am_interested := false }, [Event.toIncoming uninterestedMsg])
    else if !p.am_interested && p.our_bitfield.HasMorePieces rb then
      some ({ p with am_interested := true }, [Event.toIncoming interestedMsg])
    else
      some (p, [])

/-- Method `TryToRequestPiece` (Peer.go:230-234): when
`p.am_interested && !p.peer_choking && !p.bitfield.Completed()` holds,
send one `PieceRequest{bitfield: p.bitfield, response: p.incoming,
addr: p.addr}` on `p.requests`.  The `&&` short-circuits, so the bitfield
is only dereferenced when the first two conjuncts hold (`none` models the
nil crash there). -/
def Peer.TryToRequestPiece (p : Peer) : Option (List Event) :=
  if p.am_interested && !p.peer_choking then
    match p.bitfield with
    | none => none
    | some rb =>
      if !rb.Completed then
        some [Event.toRequests { bitfield := some rb, response := p.incomingId, addr := p.addr }]
      else
        some []
  else
    some []

/-- Result of `ProcessMessage`: Go returns `err os.Error` while mutating
`p` through the pointer, so both `ok` and `err` carry the state as left at
the return point; `crash` is a runtime crash (nil dereference or
out-of-range index), which Go does not return as an error. -/
inductive DispatchResult where
  | ok (p : Peer) (evs : List Event)
  | err (p : Peer) (evs : List Event) (msg : String)
  | crash (why : String)
deriving DecidableEq

/-- The `p.CheckInterested(); p.TryToRequestPiece()` call sequence shared
by the `unchoke`, `have` and `piece` cases of `ProcessMessage`, with the
events `pre` already emitted by the case before the sequence runs. -/
def interestThenRequest (pre : List Event) (p1 : Peer) : DispatchResult :=
  match p1.CheckInterested with
  | none => .crash "nil bitfield"
  | some (p2, cevs) =>
    match p2.TryToRequestPiece with
    | none => .crash "nil bitfield"
    | some revs => .ok p2 (pre ++ cevs ++ revs)

/-- Dispatcher `ProcessMessage` (Peer.go:155-213): Go's `switch msg.msgId` over the
constant ids `choke=0 .. port=9`, rendered as a match on those values.
In the `bitfield` case the source is
`p.bitfield, err = NewBitfieldFromBytes(...)`, a multiple assignment that
stores the constructor result into `p.bitfield` before `err` is examined,
so on failure the field holds the failed constructor's (nil) result. -/
def Peer.ProcessMessage (p : Peer) (m : Msg) : DispatchResult :=
  match m.msgId with
  | 0 => .ok { p with peer_choking := true } []
  | 1 => interestThenRequest [] { p with peer_choking := false }
  | 2 => .ok { p with peer_interested := true } []
  | 3 => .ok { p with peer_interested := false } []
  | 4 =>
    match bigEndianUint32 m.payLoad with
    | none => .crash "index out of range"
    | some idx =>
      match p.bitfield with
      | none => .crash "nil bitfield"
      | some rb => interestThenRequest [] { p with bitfield := some (rb.Set idx) }
  | 5 =>
    match NewBitfieldFromBytes p.numPieces m.payLoad with
    | .error _ => .err { p with bitfield := none } [] "Invalid bitfield"
    | .ok nb =>
      match Peer.CheckInterested { p with bitfield := some nb } with
      | none => .crash "nil bitfield"
      | some (p2, cevs) => .ok p2 cevs
  | 6 => .ok p []
  | 7 => interestThenRequest [Event.toPieces m] p
  | 8 => .ok p [Event.toDelete m]
  | 9 => .ok p []
  | _ => .err p [] "Unknown message"

/-- Outcome of one `p.wire.ReadMsg()` call in the reader loop. -/
inductive ReadOutcome where
  | failure
  | readMsg (m : Msg)
deriving DecidableEq

/-- Result of one reader-loop iteration: keep looping with the new state,
stop the task (after reporting), or crash. -/
inductive ReaderResult where
  | next (p : Peer) (evs : List Event)
  | stops (p : Peer) (evs : List Event)
  | crash (why : String)
deriving DecidableEq

/-- One iteration of `PeerReader` (Peer.go:132-153): a read failure reports
`exit` on `p.outgoing` and returns; a zero-length message only stores the
current time in `received_keepalive`; otherwise the message is dispatched,
and a dispatch error reports `exit` on `p.outgoing` and returns. -/
def Peer.PeerReaderStep (p : Peer) (now : Int) (r : ReadOutcome) : ReaderResult :=
  match r with
  | .failure => .stops p [Event.toOutgoing (exitMsg p.addr)]
  | .readMsg m =>
    if m.length = 0 then
      .next { p with received_keepalive := now } []
    else
      match p.ProcessMessage m with
      | .ok p2 evs => .next p2 evs
      | .err p2 evs _ => .stops p2 (evs ++ [Event.toOutgoing (exitMsg p.addr)])
      | .crash why => .crash why

/-- Injected outcomes of the fallible steps of `PeerWriter`'s startup
sequence (resolve, dial, SetTimeout, handshake, bitfield write). -/
structure WriterEnv where
  resolveOk : Bool
  dialOk : Bool
  setTimeoutOk : Bool
  handshakeOk : Bool
  writeBitfieldOk : Bool
deriving DecidableEq

/-- Observable steps of the writer task: report `exit` on `p.outgoing`,
launch the reader goroutine, successfully write a message to the wire,
enter the send/keep-alive loop. -/
inductive WEvent where
  | reportExit (m : Msg)
  | launchReader
  | wireWrite (m : Msg)
  | enterLoop
deriving DecidableEq

/-- The bitfield announcement written after the handshake:
`message{length: uint32(1+len(bytes)), msgId: bitfield, payLoad: bytes}`. -/
def bitfieldAnnounce (p : Peer) : Msg :=
  { length := 1 + p.our_bitfield.Bytes.length, msgId := idBitfield,
    payLoad := p.our_bitfield.Bytes, addr := "" }

/-- Startup sequence of `PeerWriter` (Peer.go:60-105) as an ordered event
trace: each failing step reports one `exit` message carrying `p.addr` and
returns; on handshake success the reader goroutine is launched (line 93)
and then the bitfield announcement is written (line 97); only after a
successful bitfield write is the main loop entered. -/
def PeerWriterStartup (p : Peer) (env : WriterEnv) : List WEvent :=
  if !env.resolveOk then [WEvent.reportExit (exitMsg p.addr)]
  else if !env.dialOk then [WEvent.reportExit (exitMsg p.addr)]
  else if !env.setTimeoutOk then [WEvent.reportExit (exitMsg p.addr)]
  else if !env.handshakeOk then [WEvent.reportExit (exitMsg p.addr)]
  else if !env.writeBitfieldOk then [WEvent.launchReader, WEvent.reportExit (exitMsg p.addr)]
  else [WEvent.launchReader, WEvent.wireWrite (bitfieldAnnounce p), WEvent.enterLoop]

/-- The two wake-up sources of the writer main loop. -/
inductive LoopInput where
  | queued (m : Msg)
  | keepAliveTick
deriving DecidableEq

/-- One iteration of the `PeerWriter` main loop (Peer.go:106-129): write
the queued message (or a keep-alive), and on a write failure report one
`exit` message carrying `p.addr` and return. -/
def PeerWriterLoopStep (p : Peer) (i : LoopInput) (writeOk : Bool) : List WEvent :=
  match i with
  | .queued m =>
    if writeOk then [WEvent.wireWrite m] else [WEvent.reportExit (exitMsg p.addr)]
  | .keepAliveTick =>
    if writeOk then [WEvent.wireWrite keepAliveMsg] else [WEvent.reportExit (exitMsg p.addr)]

/-- Connection-level state for `Close`: whether `p.wire` is non-nil (never
cleared by `Close` itself), how many times the wire has been closed, and
whether/how many times the `p.incoming` channel has been closed. -/
structure ConnState where
  peer : Peer
  wire : Bool
  wireCloseCount : Nat
  incomingClosed : Bool
  incomingCloseCount : Nat
deriving DecidableEq

/-- Shutdown routine `Close` (Peer.go:236-244): when `p.wire != nil`, send the terminal
marker on `p.pieces`, close the wire, and close `p.incoming` unless it is
already closed.  `p.wire` is never set to nil, so the guard stays true on
repeated invocation. -/
def Close (s : ConnState) : ConnState × List Event :=
  if s.wire then
    ({ s with wireCloseCount := s.wireCloseCount + 1,
              incomingClosed := true,
              incomingCloseCount :=
                if s.incomingClosed then s.incomingCloseCount else s.incomingCloseCount + 1 },
     [Event.toPieces (exitMsg s.peer.addr)])
  else
    (s, [])

/-- True of events sent on the shared `p.outgoing` supervisor channel. -/
def isOutgoing : Event → Bool
  | .toOutgoing _ => true
  | _ => false

/-- True of events sent on the `p.requests` scheduler channel. -/
def isRequestEvent : Event → Bool
  | .toRequests _ => true
  | _ => false

/-- True of writer-task exit reports on the supervisor channel. -/
def isExitReport : WEvent → Bool
  | .reportExit _ => true
  | _ => false

/-- True of successful wire writes by the writer task. -/
def isWireWrite : WEvent → Bool
  | .wireWrite _ => true
  | _ => false

/-- Predicate `occursBefore tr a b` holds when some occurrence of `a` in `tr` is
strictly earlier than some occurrence of `b`. -/
def occursBefore (tr : List WEvent) (a b : WEvent) : Bool :=
  (List.range tr.length).any fun i =>
    (List.range tr.length).any fun j =>
      decide (i < j) && (tr.getD i WEvent.enterLoop == a) && (tr.getD j WEvent.enterLoop == b)

/-- All five startup steps succeed. -/
def startupOk (env : WriterEnv) : Bool :=
  env.resolveOk && env.dialOk && env.setTimeoutOk && env.handshakeOk && env.writeBitfieldOk

/-- The reader-loop iterations that report a failure upward: a read
failure, or a non-keep-alive message whose dispatch returns an error. -/
def readerReports (p : Peer) (r : ReadOutcome) : Bool :=
  match r with
  | .failure => true
  | .readMsg m =>
    if m.length = 0 then false
    else
      match p.ProcessMessage m with
      | .err _ _ _ => true
      | _ => false

/-- The supervisor-channel sends of a reader-loop iteration's result. -/
def outgoingReports : ReaderResult → List Event
  | .next _ evs => evs.filter isOutgoing
  | .stops _ evs => evs.filter isOutgoing
  | .crash _ => []

/-- A sample freshly constructed peer: two pieces, local bitfield `10`. -/
def peerSample : Peer :=
  NewPeer "a" "ih" "pid" 2 ⟨[true, false]⟩ 0

/-- A peer that is interested and unchoked, whose local bitfield `10` is
incomplete but whose remote bitfield `11` is complete. -/
def peerC1 : Peer :=
  { peerSample with am_interested := true, peer_choking := false,
                    bitfield := some ⟨[true, true]⟩ }

/-- A peer that is interested and unchoked with incomplete remote
bitfield `01`. -/
def peerC1w : Peer :=
  { peerSample with am_interested := true, peer_choking := false,
                    bitfield := some ⟨[false, true]⟩ }

/-- A peer whose remote bitfield `01` has a piece the local `10` lacks,
with `am_interested` still false. -/
def peerC4w : Peer :=
  { peerSample with bitfield := some ⟨[false, true]⟩, incomingId := 3 }

/-- A `have` message with a two-byte payload. -/
def msgC10 : Msg :=
  { length := 3, msgId := idHave, payLoad := [0, 1], addr := "" }

/-- A writer environment in which every startup step succeeds. -/
def envOk : WriterEnv :=
  ⟨true, true, true, true, true⟩

/-- A peer with eight pieces whose remote bitfield has piece 0 set. -/
def peerC5 : Peer :=
  { NewPeer "a" "ih" "pid" 8 ⟨List.replicate 8 false⟩ 0 with
      bitfield := some ⟨[true, false, false, false, false, false, false, false]⟩ }

/-- A `bitfield` message whose two-byte payload is the wrong length for
`numPieces = 8` (one byte expected). -/
def msgC5 : Msg :=
  { length := 3, msgId := idBitfield, payLoad := [255, 255], addr := "" }

/-- A message with the undefined id 99. -/
def msgC7 : Msg :=
  { length := 1, msgId := 99, payLoad := [], addr := "x" }

/-- A live connection: wire present, nothing closed yet. -/
def connC8 : ConnState :=
  { peer := peerSample, wire := true, wireCloseCount := 0,
    incomingClosed := false, incomingCloseCount := 0 }

/-- A peer not yet interested and unchoked, local `10`, remote empty. -/
def peerC3 : Peer :=
  { peerSample with peer_choking := false, bitfield := some ⟨[false, false]⟩ }

/-- A `bitfield` message with payload `01000000`: the remote now holds
piece 1, which the local bitfield `10` lacks, and is not complete. -/
def msgC3 : Msg :=
  { length := 2, msgId := idBitfield, payLoad := [64], addr := "" }

/-- A peer with one piece, interested, choked, whose remote bitfield `1`
is complete. -/
def peerC3w : Peer :=
  { NewPeer "a" "ih" "pid" 1 ⟨[false]⟩ 0 with
      am_interested := true, bitfield := some ⟨[true]⟩ }

/-- An `unchoke` message. -/
def msgC3w : Msg :=
  { length := 1, msgId := idUnchoke, payLoad := [], addr := "" }

/-- C1 counterexample: in `peerC1`, `am_interested` holds, `peer_choking`
is false and the LOCAL bitfield is not completed, so the claim demands
that a `PieceRequest` be emitted — yet `TryToRequestPiece` emits nothing,
because the source (Peer.go:231) tests completion of the REMOTE bitfield
`p.bitfield`, which is complete here. -/
theorem c1_counterexample :
    peerC1.am_interested = true ∧ peerC1.peer_choking = false ∧
    peerC1.our_bitfield.Completed = false ∧
    peerC1.TryToRequestPiece = some [] := by
  decide

/-- C1 (amended): a `PieceRequest` is emitted iff `am_interested` is true,
`peer_choking` is false, and the REMOTE bitfield `p.bitfield` is not
completed; when emitted it carries the remote bitfield, the private
response channel `p.incoming`, and the connection's address. -/
theorem tryToRequestPiece_spec (p : Peer) (rb : Bitfield) (h : p.bitfield = some rb) :
    p.TryToRequestPiece =
      some (if p.am_interested && !p.peer_choking && !rb.Completed then
        [Event.toRequests { bitfield := some rb, response := p.incomingId, addr := p.addr }]
      else []) := by
  cases ha : p.am_interested <;> cases hc : p.peer_choking <;> cases hco : rb.Completed <;>
    simp [Peer.TryToRequestPiece, h, ha, hc, hco]

/-- C1 witness: `tryToRequestPiece_spec` applied to `peerC1w`, where the
triggering condition holds and one request is emitted. -/
theorem c1_witness :
    peerC1w.bitfield = some ⟨[false, true]⟩ ∧
    peerC1w.TryToRequestPiece =
      some (if peerC1w.am_interested && !peerC1w.peer_choking && !(Bitfield.mk [false, true]).Completed then
        [Event.toRequests { bitfield := some ⟨[false, true]⟩, response := peerC1w.incomingId,
                            addr := peerC1w.addr }]
      else []) :=
  ⟨rfl, tryToRequestPiece_spec peerC1w ⟨[false, true]⟩ rfl⟩

/-- C4: `CheckInterested` sets `am_interested` to exactly the value of
`our_bitfield.HasMorePieces remote` (true iff the remote bitfield has a
piece the local one lacks), changes no other field, emits exactly one
`interested`/`uninterested` message when the value differs from the
current flag and none otherwise; and a repeated invocation on the
resulting state emits nothing and changes nothing. -/
theorem checkInterested_spec (p : Peer) (rb : Bitfield) (h : p.bitfield = some rb) :
    p.CheckInterested =
      some ({ p with am_interested := p.our_bitfield.HasMorePieces rb },
        if p.our_bitfield.HasMorePieces rb = p.am_interested then []
        else if p.our_bitfield.HasMorePieces rb then [Event.toIncoming interestedMsg]
        else [Event.toIncoming uninterestedMsg]) ∧
    Peer.CheckInterested { p with am_interested := p.our_bitfield.HasMorePieces rb } =
      some ({ p with am_interested := p.our_bitfield.HasMorePieces rb }, []) := by
  obtain ⟨a1, a2, a3, a4, np, bf, ob, iid, ac, ai, pc, pi, rk⟩ := p
  simp only at h
  subst h
  cases hm : ob.HasMorePieces rb <;> cases ai <;>
    simp [Peer.CheckInterested, hm]

/-- C4 witness: `checkInterested_spec` applied to `peerC4w`, a state in
which the flag flips false→true and one `interested` message is emitted. -/
theorem c4_witness :
    peerC4w.CheckInterested =
      some ({ peerC4w with am_interested := peerC4w.our_bitfield.HasMorePieces ⟨[false, true]⟩ },
        if peerC4w.our_bitfield.HasMorePieces ⟨[false, true]⟩ = peerC4w.am_interested then []
        else if peerC4w.our_bitfield.HasMorePieces ⟨[false, true]⟩ then [Event.toIncoming interestedMsg]
        else [Event.toIncoming uninterestedMsg]) ∧
    Peer.CheckInterested { peerC4w with am_interested := peerC4w.our_bitfield.HasMorePieces ⟨[false, true]⟩ } =
      some ({ peerC4w with am_interested := peerC4w.our_bitfield.HasMorePieces ⟨[false, true]⟩ }, []) :=
  checkInterested_spec peerC4w ⟨[false, true]⟩ rfl

/-- A list of fewer than four bytes has no big-endian 32-bit decode. -/
theorem bigEndianUint32_short (l : List Nat) (h : l.length < 4) :
    bigEndianUint32 l = none := by
  rcases l with _ | ⟨a, _ | ⟨b, _ | ⟨c, _ | ⟨d, t⟩⟩⟩⟩
  · rfl
  · rfl
  · rfl
  · rfl
  · simp only [List.length_cons] at h
    omega

/-- C10: dispatching a `have` message whose payload is shorter than four
bytes crashes: the dispatcher decodes a 4-byte big-endian index from the
payload without checking its length (Peer.go:180), and the decode's
bounds check fails. -/
theorem processMessage_have_short_payload (p : Peer) (m : Msg)
    (h1 : m.msgId = idHave) (h2 : m.payLoad.length < 4) :
    p.ProcessMessage m = .crash "index out of range" := by
  have hb := bigEndianUint32_short m.payLoad h2
  simp [Peer.ProcessMessage, h1, idHave, hb]

/-- C10 witness: `processMessage_have_short_payload` applied to
`peerSample` and the two-byte `have` message `msgC10`. -/
theorem c10_witness :
    msgC10.msgId = idHave ∧ msgC10.payLoad.length < 4 ∧
    peerSample.ProcessMessage msgC10 = .crash "index out of range" :=
  ⟨rfl, by decide, processMessage_have_short_payload peerSample msgC10 rfl (by decide)⟩

/-- C2 counterexample: in the successful startup trace of `PeerWriter` the
reader launch (Peer.go:93) occurs strictly BEFORE the bitfield write
(Peer.go:97): `launchReader` never occurs after the bitfield write, and
the bitfield write does occur after `launchReader`; the claim asserts the
opposite order. -/
theorem c2_counterexample :
    occursBefore (PeerWriterStartup peerSample envOk)
      (WEvent.wireWrite (bitfieldAnnounce peerSample)) WEvent.launchReader = false ∧
    occursBefore (PeerWriterStartup peerSample envOk)
      WEvent.launchReader (WEvent.wireWrite (bitfieldAnnounce peerSample)) = true ∧
    WEvent.launchReader ∈ PeerWriterStartup peerSample envOk ∧
    WEvent.wireWrite (bitfieldAnnounce peerSample) ∈ PeerWriterStartup peerSample envOk := by
  decide

/-- C2 (amended): on a fully successful startup, the Reader task is
launched right after the handshake and BEFORE the bitfield announcement
is written; the bitfield announcement is nevertheless the only (hence
first) wire write of the startup sequence, and the send loop — the only
other source of outbound wire traffic — is entered only after it. -/
theorem peerWriterStartup_order (p : Peer) (env : WriterEnv) (h : startupOk env = true) :
    PeerWriterStartup p env =
      [WEvent.launchReader, WEvent.wireWrite (bitfieldAnnounce p), WEvent.enterLoop] ∧
    (PeerWriterStartup p env).filter isWireWrite = [WEvent.wireWrite (bitfieldAnnounce p)] := by
  obtain ⟨r, d, t, hs, w⟩ := env
  simp only [startupOk, Bool.and_eq_true] at h
  obtain ⟨⟨⟨⟨hr, hd⟩, ht⟩, hhs⟩, hw⟩ := h
  subst hr hd ht hhs hw
  constructor
  · simp [PeerWriterStartup]
  · simp [PeerWriterStartup, isWireWrite, List.filter]

/-- C2 witness: `peerWriterStartup_order` applied to `peerSample` in the
all-successful environment `envOk`. -/
theorem c2_witness :
    startupOk envOk = true ∧
    (PeerWriterStartup peerSample envOk =
      [WEvent.launchReader, WEvent.wireWrite (bitfieldAnnounce peerSample), WEvent.enterLoop] ∧
    (PeerWriterStartup peerSample envOk).filter isWireWrite =
      [WEvent.wireWrite (bitfieldAnnounce peerSample)]) :=
  ⟨by decide, peerWriterStartup_order peerSample envOk (by decide)⟩

/-- C5: dispatching a wrong-length `bitfield` payload for `numPieces = 8`
returns the "Invalid bitfield" error with no events, but the remote
bitfield, which held piece 0 before the message, has been overwritten
with the failed constructor's nil result: the source's multiple
assignment `p.bitfield, err = NewBitfieldFromBytes(...)` (Peer.go:188)
stores into `p.bitfield` before `err` is checked (Peer.go:189), so the
offending message DOES mutate `remoteBitfield`. -/
theorem c5_invalid_bitfield_clobbers :
    peerC5.ProcessMessage msgC5 = .err { peerC5 with bitfield := none } [] "Invalid bitfield" ∧
    peerC5.bitfield = some ⟨[true, false, false, false, false, false, false, false]⟩ ∧
    ({ peerC5 with bitfield := none } : Peer).bitfield ≠ peerC5.bitfield := by
  refine ⟨by decide, rfl, by decide⟩

/-- C6: a zero-length inbound message makes the reader store the current
time in `received_keepalive` and loop on: the dispatcher is not invoked,
no event is emitted on any channel, and the four protocol flags and the
remote bitfield are unchanged. -/
theorem readerStep_keepalive (p : Peer) (now : Int) (m : Msg) (h : m.length = 0) :
    p.PeerReaderStep now (.readMsg m) = .next { p with received_keepalive := now } [] ∧
    ({ p with received_keepalive := now } : Peer).am_choking = p.am_choking ∧
    ({ p with received_keepalive := now } : Peer).am_interested = p.am_interested ∧
    ({ p with received_keepalive := now } : Peer).peer_choking = p.peer_choking ∧
    ({ p with received_keepalive := now } : Peer).peer_interested = p.peer_interested ∧
    ({ p with received_keepalive := now } : Peer).bitfield = p.bitfield := by
  refine ⟨?_, rfl, rfl, rfl, rfl, rfl⟩
  simp [Peer.PeerReaderStep, h]

/-- C6 witness: `readerStep_keepalive` applied to `peerSample` at time 42
and the keep-alive message. -/
theorem c6_witness :
    keepAliveMsg.length = 0 ∧
    (peerSample.PeerReaderStep 42 (.readMsg keepAliveMsg) =
      .next { peerSample with received_keepalive := 42 } [] ∧
    ({ peerSample with received_keepalive := 42 } : Peer).am_choking = peerSample.am_choking ∧
    ({ peerSample with received_keepalive := 42 } : Peer).am_interested = peerSample.am_interested ∧
    ({ peerSample with received_keepalive := 42 } : Peer).peer_choking = peerSample.peer_choking ∧
    ({ peerSample with received_keepalive := 42 } : Peer).peer_interested = peerSample.peer_interested ∧
    ({ peerSample with received_keepalive := 42 } : Peer).bitfield = peerSample.bitfield) :=
  ⟨rfl, readerStep_keepalive peerSample 42 keepAliveMsg rfl⟩

/-- C7: a non-keep-alive message whose id is none of the ten defined wire
ids makes the dispatcher return the "Unknown message" error with the
state unmodified and no events, and the reader then sends exactly one
`exit` report carrying the peer's address on the supervisor channel and
terminates. -/
theorem readerStep_unknown_id (p : Peer) (now : Int) (m : Msg) (h0 : m.length ≠ 0)
    (h : m.msgId ∉ [idChoke, idUnchoke, idInterested, idUninterested, idHave,
                    idBitfield, idRequest, idPiece, idCancel, idPort]) :
    p.ProcessMessage m = .err p [] "Unknown message" ∧
    p.PeerReaderStep now (.readMsg m) = .stops p [Event.toOutgoing (exitMsg p.addr)] := by
  simp only [List.mem_cons, List.not_mem_nil, or_false, not_or] at h
  obtain ⟨n0, n1, n2, n3, n4, n5, n6, n7, n8, n9⟩ := h
  have hpm : p.ProcessMessage m = .err p [] "Unknown message" := by
    unfold Peer.ProcessMessage
    split
    all_goals first
    | rfl
    | (rename_i heq; exact absurd heq (by assumption))
  refine ⟨hpm, ?_⟩
  simp [Peer.PeerReaderStep, h0, hpm]

/-- C7 witness: `readerStep_unknown_id` applied to `peerSample` and the
id-99 message `msgC7`. -/
theorem c7_witness :
    msgC7.length ≠ 0 ∧
    (peerSample.ProcessMessage msgC7 = .err peerSample [] "Unknown message" ∧
    peerSample.PeerReaderStep 0 (.readMsg msgC7) =
      .stops peerSample [Event.toOutgoing (exitMsg peerSample.addr)]) :=
  ⟨by decide, readerStep_unknown_id peerSample 0 msgC7 (by decide) (by decide)⟩

/-- C8 counterexample: invoking `Close` twice on a live connection closes
the underlying wire TWICE — the claim that the wire is never closed more
than once is false, because `Close` checks `p.wire != nil` but never
clears `p.wire` (Peer.go:237-239).  The `p.incoming` channel, by
contrast, is closed only once thanks to the `closed()` guard. -/
theorem c8_counterexample :
    (Close (Close connC8).fst).fst.wireCloseCount = 2 ∧
    (Close (Close connC8).fst).fst.incomingCloseCount = 1 := by
  decide

/-- Helper fact: `CheckInterested` sends only on `p.incoming`: never on the supervisor
channel and never on the scheduler channel. -/
theorem checkInterested_events (p q : Peer) (evs : List Event)
    (h : p.CheckInterested = some (q, evs)) :
    evs.filter isOutgoing = [] ∧ evs.filter isRequestEvent = [] := by
  unfold Peer.CheckInterested at h
  split at h
  · exact Option.noConfusion h
  · split_ifs at h
    all_goals
      simp only [Option.some.injEq, Prod.mk.injEq] at h
      obtain ⟨hq, hevs⟩ := h
      subst hevs
      exact ⟨rfl, rfl⟩

/-- Helper fact: `TryToRequestPiece` sends only on `p.requests`: its event list is all
scheduler requests and contains no supervisor sends. -/
theorem tryToRequestPiece_events (p : Peer) (evs : List Event)
    (h : p.TryToRequestPiece = some evs) :
    evs.filter isOutgoing = [] ∧ evs.filter isRequestEvent = evs := by
  unfold Peer.TryToRequestPiece at h
  split_ifs at h
  · split at h
    · exact Option.noConfusion h
    · split_ifs at h
      all_goals
        simp only [Option.some.injEq] at h
        subst h
        exact ⟨rfl, rfl⟩
  · simp only [Option.some.injEq] at h
    subst h
    exact ⟨rfl, rfl⟩

/-- When the shared interest-then-request tail returns `ok`, its events
contain no supervisor sends, and the scheduler requests among them are
exactly what `TryToRequestPiece` emits on the resulting state. -/
theorem interestThenRequest_ok (pre : List Event) (p1 p2 : Peer) (evs : List Event)
    (hpre : pre.filter isOutgoing = [] ∧ pre.filter isRequestEvent = [])
    (h : interestThenRequest pre p1 = .ok p2 evs) :
    evs.filter isOutgoing = [] ∧ p2.TryToRequestPiece = some (evs.filter isRequestEvent) := by
  unfold interestThenRequest at h
  split at h
  · exact DispatchResult.noConfusion h
  · rename_i q cevs hci
    split at h
    · exact DispatchResult.noConfusion h
    · rename_i revs htr
      injection h with hq hevs
      subst hq
      subst hevs
      obtain ⟨hco, hcr⟩ := checkInterested_events p1 q cevs hci
      obtain ⟨hto, htr2⟩ := tryToRequestPiece_events q revs htr
      constructor
      · simp [List.filter_append, hpre.1, hco, hto]
      · rw [List.filter_append, List.filter_append, hpre.2, hcr, htr2]
        simpa using htr

/-- The shared interest-then-request tail never returns an `err`. -/
theorem interestThenRequest_not_err (pre : List Event) (p1 p2 : Peer)
    (evs : List Event) (e : String) :
    interestThenRequest pre p1 ≠ .err p2 evs e := by
  intro h
  unfold interestThenRequest at h
  split at h
  · exact DispatchResult.noConfusion h
  · split at h
    · exact DispatchResult.noConfusion h
    · exact DispatchResult.noConfusion h

/-- A successful dispatch emits nothing on the supervisor channel. -/
theorem processMessage_ok_outgoing (p : Peer) (m : Msg) (p2 : Peer) (evs : List Event)
    (h : p.ProcessMessage m = .ok p2 evs) : evs.filter isOutgoing = [] := by
  unfold Peer.ProcessMessage at h
  split at h
  · injection h with hp hevs
    subst hevs
    rfl
  · exact (interestThenRequest_ok [] _ p2 evs ⟨rfl, rfl⟩ h).1
  · injection h with hp hevs
    subst hevs
    rfl
  · injection h with hp hevs
    subst hevs
    rfl
  · split at h
    · exact DispatchResult.noConfusion h
    · split at h
      · exact DispatchResult.noConfusion h
      · exact (interestThenRequest_ok [] _ p2 evs ⟨rfl, rfl⟩ h).1
  · split at h
    · exact DispatchResult.noConfusion h
    · split at h
      · exact DispatchResult.noConfusion h
      · rename_i q cevs hci
        injection h with hq hevs
        subst hevs
        exact (checkInterested_events _ _ _ hci).1
  · injection h with hp hevs
    subst hevs
    rfl
  · exact (interestThenRequest_ok [Event.toPieces m] _ p2 evs ⟨rfl, rfl⟩ h).1
  · injection h with hp hevs
    subst hevs
    rfl
  · injection h with hp hevs
    subst hevs
    rfl
  · exact DispatchResult.noConfusion h

/-- A failed dispatch has emitted no events at all by its return point. -/
theorem processMessage_err_events (p : Peer) (m : Msg) (p2 : Peer)
    (evs : List Event) (e : String)
    (h : p.ProcessMessage m = .err p2 evs e) : evs = [] := by
  unfold Peer.ProcessMessage at h
  split at h
  · exact DispatchResult.noConfusion h
  · exact absurd h (interestThenRequest_not_err [] _ p2 evs e)
  · exact DispatchResult.noConfusion h
  · exact DispatchResult.noConfusion h
  · split at h
    · exact DispatchResult.noConfusion h
    · split at h
      · exact DispatchResult.noConfusion h
      · exact absurd h (interestThenRequest_not_err [] _ p2 evs e)
  · split at h
    · injection h with hp hevs he
      exact hevs.symm
    · split at h
      · exact DispatchResult.noConfusion h
      · exact DispatchResult.noConfusion h
  · exact DispatchResult.noConfusion h
  · exact absurd h (interestThenRequest_not_err [Event.toPieces m] _ p2 evs e)
  · exact DispatchResult.noConfusion h
  · exact DispatchResult.noConfusion h
  · injection h with hp hevs he
    exact hevs.symm

/-- C3 counterexample: dispatching the full-bitfield update `msgC3` in
state `peerC3` flips `am_interested` and emits only the `interested`
message — no scheduler request — even though `TryToRequestPiece` on the
resulting state would emit one (the triggering condition holds there):
the `bitfield` case of the source (Peer.go:185-193) calls
`CheckInterested` but, unlike `unchoke`/`have`/`piece`, never calls
`TryToRequestPiece`. -/
theorem c3_counterexample :
    peerC3.ProcessMessage msgC3 =
      .ok { peerC3 with am_interested := true, bitfield := some ⟨[false, true]⟩ }
        [Event.toIncoming interestedMsg] ∧
    Peer.TryToRequestPiece
        { peerC3 with am_interested := true, bitfield := some ⟨[false, true]⟩ } =
      some [Event.toRequests { bitfield := some ⟨[false, true]⟩,
                               response := peerC3.incomingId, addr := peerC3.addr }] := by
  refine ⟨by decide, by decide⟩

/-- C3 (amended): after a successful dispatch of an `unchoke`, `have` or
`piece` message, the scheduler requests among the emitted events are
exactly what `TryToRequestPiece` produces on the post-state (the request
attempt runs after the message's state effect); after a successful
dispatch of a `bitfield` message no request is attempted and no scheduler
request is emitted. -/
theorem processMessage_request_trigger (p : Peer) (m : Msg) (p2 : Peer) (evs : List Event)
    (h : p.ProcessMessage m = .ok p2 evs) :
    (m.msgId = idUnchoke ∨ m.msgId = idHave ∨ m.msgId = idPiece →
      p2.TryToRequestPiece = some (evs.filter isRequestEvent)) ∧
    (m.msgId = idBitfield → evs.filter isRequestEvent = []) := by
  unfold Peer.ProcessMessage at h
  split at h
  · rename_i heq
    constructor
    · rintro (hx | hx | hx) <;> rw [heq] at hx <;> exact absurd hx (by decide)
    · intro hx
      rw [heq] at hx
      exact absurd hx (by decide)
  · rename_i heq
    constructor
    · intro _
      exact (interestThenRequest_ok [] _ p2 evs ⟨rfl, rfl⟩ h).2
    · intro hx
      rw [heq] at hx
      exact absurd hx (by decide)
  · rename_i heq
    constructor
    · rintro (hx | hx | hx) <;> rw [heq] at hx <;> exact absurd hx (by decide)
    · intro hx
      rw [heq] at hx
      exact absurd hx (by decide)
  · rename_i heq
    constructor
    · rintro (hx | hx | hx) <;> rw [heq] at hx <;> exact absurd hx (by decide)
    · intro hx
      rw [heq] at hx
      exact absurd hx (by decide)
  · rename_i heq
    constructor
    · intro _
      split at h
      · exact DispatchResult.noConfusion h
      · split at h
        · exact DispatchResult.noConfusion h
        · exact (interestThenRequest_ok [] _ p2 evs ⟨rfl, rfl⟩ h).2
    · intro hx
      rw [heq] at hx
      exact absurd hx (by decide)
  · rename_i heq
    constructor
    · rintro (hx | hx | hx) <;> rw [heq] at hx <;> exact absurd hx (by decide)
    · intro _
      split at h
      · exact DispatchResult.noConfusion h
      · split at h
        · exact DispatchResult.noConfusion h
        · rename_i q cevs hci
          injection h with hq hevs
          subst hevs
          exact (checkInterested_events _ _ _ hci).2
  · rename_i heq
    constructor
    · rintro (hx | hx | hx) <;> rw [heq] at hx <;> exact absurd hx (by decide)
    · intro hx
      rw [heq] at hx
      exact absurd hx (by decide)
  · rename_i heq
    constructor
    · intro _
      exact (interestThenRequest_ok [Event.toPieces m] _ p2 evs ⟨rfl, rfl⟩ h).2
    · intro hx
      rw [heq] at hx
      exact absurd hx (by decide)
  · rename_i heq
    constructor
    · rintro (hx | hx | hx) <;> rw [heq] at hx <;> exact absurd hx (by decide)
    · intro hx
      rw [heq] at hx
      exact absurd hx (by decide)
  · rename_i heq
    constructor
    · rintro (hx | hx | hx) <;> rw [heq] at hx <;> exact absurd hx (by decide)
    · intro hx
      rw [heq] at hx
      exact absurd hx (by decide)
  · exact DispatchResult.noConfusion h

/-- C3 witness: `processMessage_request_trigger` applied to the dispatch
of an `unchoke` message in `peerC3w`. -/
theorem c3_witness :
    peerC3w.ProcessMessage msgC3w = .ok { peerC3w with peer_choking := false } [] ∧
    ((msgC3w.msgId = idUnchoke ∨ msgC3w.msgId = idHave ∨ msgC3w.msgId = idPiece →
      Peer.TryToRequestPiece { peerC3w with peer_choking := false } =
        some (([] : List Event).filter isRequestEvent)) ∧
    (msgC3w.msgId = idBitfield → ([] : List Event).filter isRequestEvent = [])) :=
  ⟨by decide, processMessage_request_trigger peerC3w msgC3w
    { peerC3w with peer_choking := false } [] (by decide)⟩

/-- C9: every failure is reported exactly once, tagged with the address:
each failing startup step of the writer reports one `exit` carrying
`p.addr` and a fully successful startup reports none; a failing loop
write reports exactly one and a successful one none; and a reader
iteration sends exactly one `exit` report on the supervisor channel when
the read fails or the dispatch returns an error, and none otherwise. -/
theorem failure_reports_exactly_once :
    (∀ (p : Peer) (env : WriterEnv),
      (PeerWriterStartup p env).filter isExitReport =
        if startupOk env then [] else [WEvent.reportExit (exitMsg p.addr)]) ∧
    (∀ (p : Peer) (i : LoopInput) (ok : Bool),
      (PeerWriterLoopStep p i ok).filter isExitReport =
        if ok then [] else [WEvent.reportExit (exitMsg p.addr)]) ∧
    (∀ (p : Peer) (now : Int) (r : ReadOutcome),
      outgoingReports (p.PeerReaderStep now r) =
        if readerReports p r then [Event.toOutgoing (exitMsg p.addr)] else []) := by
  refine ⟨?_, ?_, ?_⟩
  · intro p env
    obtain ⟨r, d, t, hs, w⟩ := env
    cases r <;> cases d <;> cases t <;> cases hs <;> cases w <;>
      simp [PeerWriterStartup, startupOk, isExitReport, List.filter]
  · intro p i ok
    cases i <;> cases ok <;> simp [PeerWriterLoopStep, isExitReport, List.filter]
  · intro p now r
    cases r with
    | failure =>
      simp [Peer.PeerReaderStep, readerReports, outgoingReports, isOutgoing, List.filter]
    | readMsg m =>
      by_cases hl : m.length = 0
      · simp [Peer.PeerReaderStep, readerReports, outgoingReports, hl]
      · rcases hpm : p.ProcessMessage m with ⟨p2, evs⟩ | ⟨p2, evs, e⟩ | why
        · have hout := processMessage_ok_outgoing p m p2 evs hpm
          simp [Peer.PeerReaderStep, readerReports, outgoingReports, hl, hpm, hout]
        · have hevs := processMessage_err_events p m p2 evs e hpm
          subst hevs
          simp [Peer.PeerReaderStep, readerReports, outgoingReports, hl, hpm,
                isOutgoing, List.filter]
        · simp [Peer.PeerReaderStep, readerReports, outgoingReports, hl, hpm]

/-- C8 (amended): `Close` is idempotent for the `p.incoming` channel but
not for the wire: across two sequential invocations from any state the
channel is closed at most once more, while a state with a live wire
suffers two further wire closes, since the wire handle is never
cleared. -/
theorem close_double_invocation (s : ConnState) :
    (Close (Close s).fst).fst.incomingCloseCount ≤ s.incomingCloseCount + 1 ∧
    (Close (Close s).fst).fst.wireCloseCount =
      s.wireCloseCount + (if s.wire then 2 else 0) ∧
    (Close (Close s).fst).fst.wire = s.wire := by
  obtain ⟨p, w, wc, ic, icc⟩ := s
  cases w <;> cases ic <;> simp [Close]

end Wgo
